import Mathlib

/-!
Verification development for the ROS (X.880 Remote Operations Service)
invoke/result correlator and opcode dispatch of
`epan/dissectors/asn1/ros/packet-ros-template.c`, and the WoW auth-stream
framing of `epan/dissectors/packet-wow.c`.

The C state is embedded shallowly: the two per-conversation `wmem_map_t`
tables (keys are the `ros_call_response_t` records themselves, with the
custom hash/equal callbacks) are modelled as lists of records, looked up
and updated with the exact C equality callbacks; `nstime_t` timestamps are
modelled as rationals; frame numbers as naturals.
-/

/-- Embedding of `ros_call_response_t` (packet-ros-template.c, lines 44-50).
`req_time` models the `nstime_t` as a rational number of seconds. -/
structure RosCallResponse where
  is_request : Bool
  req_frame : Nat
  req_time : ℚ
  rep_frame : Nat
  invokeId : Nat
deriving DecidableEq, Repr

/-- Embedding of `ros_info_equal_matched` (lines 226-242): requestFrame
participates in equality only when both sides carry a nonzero one; the
`rep_frame` comparison is commented out in the source. -/
def ros_info_equal_matched (key1 key2 : RosCallResponse) : Bool :=
  if key1.req_frame ≠ 0 ∧ key2.req_frame ≠ 0 ∧ key1.req_frame ≠ key2.req_frame then
    false
  else
    key1.invokeId == key2.invokeId

/-- Embedding of `ros_info_equal_unmatched` (lines 252-259): invocation id only. -/
def ros_info_equal_unmatched (key1 key2 : RosCallResponse) : Bool :=
  key1.invokeId == key2.invokeId

/-- Lookup in a `wmem_map_t` bucket chain: first stored record that the
map's equality callback judges equal to the probe. -/
def mapLookup (eq : RosCallResponse → RosCallResponse → Bool) (probe : RosCallResponse) :
    List RosCallResponse → Option RosCallResponse
  | [] => none
  | x :: xs => if eq probe x then some x else mapLookup eq probe xs

/-- Remove the first record the map's equality callback judges equal to the
key, as `wmem_map_remove` does. -/
def mapRemove (eq : RosCallResponse → RosCallResponse → Bool) (key : RosCallResponse) :
    List RosCallResponse → List RosCallResponse
  | [] => []
  | x :: xs => if eq key x then xs else x :: mapRemove eq key xs

/-- Replace the first record equal to the key (helper for `mapInsert`). -/
def replaceFirst (eq : RosCallResponse → RosCallResponse → Bool) (key : RosCallResponse) :
    List RosCallResponse → List RosCallResponse
  | [] => []
  | x :: xs => if eq key x then key :: xs else x :: replaceFirst eq key xs

/-- Embedding of `wmem_map_insert`: replaces an existing equal key, else
prepends (new hash-chain entries are found first by later lookups). -/
def mapInsert (eq : RosCallResponse → RosCallResponse → Bool) (key : RosCallResponse)
    (m : List RosCallResponse) : List RosCallResponse :=
  if m.any (fun x => eq key x) then replaceFirst eq key m else key :: m

/-- Update the first record matching the probe in place, modelling the C
mutation of the record object returned by `wmem_map_lookup`. -/
def updateFirstMatch (p : RosCallResponse → Bool) (f : RosCallResponse → RosCallResponse) :
    List RosCallResponse → List RosCallResponse
  | [] => []
  | x :: xs => if p x then f x :: xs else x :: updateFirstMatch p f xs

/-- Embedding of `ros_conv_info_t` (lines 39-42): the per-conversation
unmatched (pending) and matched (completed) operation tables. -/
structure RosConvInfo where
  unmatched : List RosCallResponse
  matched : List RosCallResponse
deriving DecidableEq, Repr

/-- The generated annotation items (lines 343-357): `hf_ros_response_in`
from the invoke side, `hf_ros_response_to` plus the elapsed time from the
result side. -/
inductive RosAnnot
  | responseIn (rep_frame : Nat)
  | responseTo (req_frame : Nat) (elapsed : ℚ)
deriving DecidableEq, Repr

/-- The `if(rcrp)` annotation block at the end of `ros_match_call_response`
(lines 343-357): which generated items are added for the returned record. -/
def ros_annotate (rcrp : RosCallResponse) (abs_ts : ℚ) : RosAnnot :=
  if rcrp.is_request then
    .responseIn rcrp.rep_frame
  else
    .responseTo rcrp.req_frame (abs_ts - rcrp.req_time)

/-- The stack probe `rcr` built by `ros_match_call_response` for an invoke
(lines 277-286); its `req_time` is never read. -/
def invokeProbe (invokeId num : Nat) : RosCallResponse :=
  { invokeId := invokeId, is_request := true, req_frame := num, req_time := 0, rep_frame := 0 }

/-- The stack probe `rcr` built by `ros_match_call_response` for a result. -/
def resultProbe (invokeId num : Nat) : RosCallResponse :=
  { invokeId := invokeId, is_request := false, req_frame := 0, req_time := 0, rep_frame := num }

/-- Embedding of `ros_match_call_response` (lines 261-360), given the
conversation state; `num` is `pinfo->num`, `abs_ts` is `pinfo->abs_ts`.
Returns the new state, the returned record (NULL modelled as `none`), and
the generated annotation items. -/
def ros_match_call_response (s : RosConvInfo) (invokeId num : Nat) (abs_ts : ℚ)
    (isInvoke : Bool) : RosConvInfo × Option RosCallResponse × Option RosAnnot :=
  let rcr := if isInvoke then invokeProbe invokeId num else resultProbe invokeId num
  match mapLookup ros_info_equal_matched rcr s.matched with
  | some rcrp =>
      let rcrp2 := { rcrp with is_request := isInvoke }
      let s2 := { s with
        matched := updateFirstMatch (fun x => ros_info_equal_matched rcr x)
          (fun x => { x with is_request := isInvoke }) s.matched }
      (s2, some rcrp2, some (ros_annotate rcrp2 abs_ts))
  | none =>
      if isInvoke then
        let unmatched1 :=
          match mapLookup ros_info_equal_unmatched rcr s.unmatched with
          | some rcrp => mapRemove ros_info_equal_unmatched rcrp s.unmatched
          | none => s.unmatched
        let fresh : RosCallResponse :=
          { invokeId := invokeId, req_frame := num, req_time := abs_ts,
            rep_frame := 0, is_request := true }
        ({ s with unmatched := mapInsert ros_info_equal_unmatched fresh unmatched1 },
         none, none)
      else
        match mapLookup ros_info_equal_unmatched rcr s.unmatched with
        | some rcrp =>
            if rcrp.rep_frame = 0 then
              let moved := { rcrp with rep_frame := num, is_request := false }
              ({ unmatched := mapRemove ros_info_equal_unmatched rcrp s.unmatched,
                 matched := mapInsert ros_info_equal_matched moved s.matched },
               some moved, some (ros_annotate moved abs_ts))
            else
              (s, some rcrp, some (ros_annotate rcrp abs_ts))
        | none => (s, none, none)

/-- One correlator call described as data: an invoke or result PDU for an
invocation id, observed at frame `num` and capture time `abs_ts`. -/
structure RosOp where
  invokeId : Nat
  num : Nat
  abs_ts : ℚ
  isInvoke : Bool
deriving DecidableEq, Repr

/-- The state transition of one correlator call. -/
def rosStep (s : RosConvInfo) (op : RosOp) : RosConvInfo :=
  (ros_match_call_response s op.invokeId op.num op.abs_ts op.isInvoke).1

/-- Running a sequence of correlator calls from the freshly created
conversation state (both maps empty, lines 394-403). -/
def rosRun (ops : List RosOp) : RosConvInfo :=
  ops.foldl rosStep ⟨[], []⟩

/-!
Dispatch registry: `ros_lookup_opr_dissector`, `ros_lookup_err_dissector`,
`ros_try_string` and `call_ros_oid_callback`. A `dissector_t` C value is
either NULL, the sentinel `(dissector_t)(-1)` terminating the static
tables, or a real function pointer modelled as an identifier into an
environment mapping it to the number of bytes it consumes.
-/

/-- Value space of a `dissector_t` pointer as used by the opcode tables. -/
inductive DissPtr
  | null
  | sentinel
  | fn (d : Nat)
deriving DecidableEq, Repr

/-- Entry of a `ros_opr_t` operation table (declared in packet-ros.h,
fields as used by `ros_lookup_opr_dissector`). -/
structure RosOpr where
  opcode : Int
  arg_pdu : DissPtr
  res_pdu : DissPtr
deriving DecidableEq, Repr

/-- Entry of a `ros_err_t` error table. -/
structure RosErr where
  errcode : Int
  err_pdu : DissPtr
deriving DecidableEq, Repr

/-- Embedding of `ros_lookup_opr_dissector` (lines 99-109): scan the table
from the front until the sentinel entry (whose `arg_pdu` is
`(dissector_t)(-1)`), returning the first entry with the requested opcode;
NULL when the table pointer is NULL or nothing matches. -/
def ros_lookup_opr_loop (opcode_lcl : Int) (argument : Bool) : List RosOpr → DissPtr
  | [] => .null
  | e :: rest =>
      if e.arg_pdu = .sentinel then .null
      else if e.opcode = opcode_lcl then (if argument then e.arg_pdu else e.res_pdu)
      else ros_lookup_opr_loop opcode_lcl argument rest

/-- Embedding of `ros_lookup_opr_dissector` (lines 99-109, entry point). -/
def ros_lookup_opr_dissector (opcode_lcl : Int) (operations : Option (List RosOpr))
    (argument : Bool) : DissPtr :=
  match operations with
  | none => .null
  | some ops => ros_lookup_opr_loop opcode_lcl argument ops

/-- The scan loop of `ros_lookup_err_dissector` (lines 114-119). -/
def ros_lookup_err_loop (errcode : Int) : List RosErr → DissPtr
  | [] => .null
  | e :: rest =>
      if e.err_pdu = .sentinel then .null
      else if e.errcode = errcode then e.err_pdu
      else ros_lookup_err_loop errcode rest

/-- Embedding of `ros_lookup_err_dissector` (lines 111-121). -/
def ros_lookup_err_dissector (errcode : Int) (errors : Option (List RosErr)) : DissPtr :=
  match errors with
  | none => .null
  | some errs => ros_lookup_err_loop errcode errs

/-- The PDU kind carried in `session->ros_op & ROS_OP_PDU_MASK` (the mask
constants live in packet-ros.h, not among the sources): argument, result,
error, or any other value (the switch default). -/
inductive RosPduKind
  | argument
  | result
  | error
  | other
deriving DecidableEq, Repr

/-- Modelled from the spec: the reserved bind pseudo-opcode for operations
(`op_ros_bind` from packet-ros.h, which is not among the sources); the
spec only requires it to live in a code space distinct from ordinary
operation codes. -/
def op_ros_bind : Int := -2

/-- Modelled from the spec: the reserved bind pseudo-opcode for errors
(`err_ros_bind` from packet-ros.h, which is not among the sources). -/
def err_ros_bind : Int := -3

/-- The fields of `session->ros_op` read by `ros_try_string`, with the
bit-mask decomposition of packet-ros.h (not among the sources) made
structural: whether the operation type is a bind, the PDU kind, and the
ordinary opcode bits. -/
structure RosSession where
  isBind : Bool
  pduKind : RosPduKind
  opcode : Int
deriving DecidableEq, Repr

/-- Per-OID protocol registration `ros_info_t` as read by `ros_try_string`
(declared in packet-ros.h; only the dissector tables matter here, the
name/string/tree fields are presentation-only). -/
structure RosInfoT where
  opr_code_dissectors : Option (List RosOpr)
  err_code_dissectors : Option (List RosErr)
deriving DecidableEq, Repr

/-- Association lookup in the string-keyed `protocol_table` wmem map. -/
def strLookup {α : Type} (k : String) : List (String × α) → Option α
  | [] => none
  | (k2, v) :: rest => if k = k2 then some v else strLookup k rest

/-- The opcode/dissector resolution performed by `ros_try_string`
(lines 136-174): NULL session or OID, unregistered OID, bind pseudo-opcode
selection, then the table lookup for the PDU kind. -/
def ros_resolve (protocol_table : List (String × RosInfoT)) (oid : Option String)
    (session : Option RosSession) : DissPtr :=
  match session, oid with
  | some session, some oid =>
      match strLookup oid protocol_table with
      | some rinfo =>
          let opcode_lcl : Int :=
            if session.isBind then
              (if session.pduKind = .error then err_ros_bind else op_ros_bind)
            else session.opcode
          match session.pduKind with
          | .argument => ros_lookup_opr_dissector opcode_lcl rinfo.opr_code_dissectors true
          | .result => ros_lookup_opr_dissector opcode_lcl rinfo.opr_code_dissectors false
          | .error => ros_lookup_err_dissector opcode_lcl rinfo.err_code_dissectors
          | .other => .null
      | none => .null
  | _, _ => .null

/-- Embedding of `ros_try_string` (lines 124-189): returns the resolved
dissector's return value, or 0 when no dissector resolves.  `env` gives
each dissector function the number of bytes it reports consumed; calling
the sentinel value would be undefined in C and is modelled as consuming
nothing. -/
def ros_try_string (env : Nat → List Nat → Int) (protocol_table : List (String × RosInfoT))
    (oid : Option String) (tvb : List Nat) (session : Option RosSession) : Int :=
  match ros_resolve protocol_table oid session with
  | .fn d => env d tvb
  | .null => 0
  | .sentinel => 0

/-- Modelled from the spec: `dissector_try_string` on the generic
string-keyed `ros.oid` dissector table (epan core, not among the sources);
the secondary table returns its handler's consumed length, or 0 when the
key has no entry. -/
def dissector_try_string (env : Nat → List Nat → Int) (table : List (String × Nat))
    (oid : Option String) (tvb : List Nat) : Int :=
  match oid with
  | some o =>
      match strLookup o table with
      | some d => env d tvb
      | none => 0
  | none => 0

/-- Modelled from the spec: `dissect_unknown_ber` (packet-ber.c, not among
the sources), the minimal structural decoder that consumes the remaining
PDU bytes as an opaque block and returns the offset at the end of the
buffer. -/
def dissect_unknown_ber (tvb : List Nat) : Int :=
  tvb.length

/-- Embedding of `call_ros_oid_callback` (lines 191-215): try the
registered protocol info, then the generic string table, and finally the
fallback which emits the one `ei_ros_dissector_oid_not_implemented`
diagnostic (returned as the list of OIDs it was tagged with) and decodes
the remainder as unknown BER.  Returns the advanced offset and the
diagnostics. -/
def call_ros_oid_callback (env : Nat → List Nat → Int)
    (protocol_table : List (String × RosInfoT)) (oid_table : List (String × Nat))
    (oid : Option String) (tvb : List Nat) (offset : Nat) (session : Option RosSession) :
    Int × List (Option String) :=
  let next_tvb := tvb.drop offset
  let len1 := ros_try_string env protocol_table oid next_tvb session
  if len1 ≠ 0 then (offset + len1, [])
  else
    let len2 := dissector_try_string env oid_table oid next_tvb
    if len2 ≠ 0 then (offset + len2, [])
    else
      (offset + dissect_unknown_ber next_tvb, [oid])

/-!
WoW authentication-stream framing (packet-wow.c): the direction macros
compare ports against `WOW_PORT` (3724); `dissect_wow` decides between a
single-shot dissection of the delivered segment and `tcp_dissect_pdus`
reassembly driven by `get_wow_pdu_len`.
-/

/-- The `#define WOW_PORT 3724`. -/
def WOW_PORT : Nat := 3724

/-- The `CMD_AUTH_LOGON_CHALLENGE` command byte. -/
def CMD_AUTH_LOGON_CHALLENGE : Nat := 0x00

/-- The `CMD_REALM_LIST` command byte. -/
def CMD_REALM_LIST : Nat := 0x10

/-- The `size_field_offset` computation shared by `dissect_wow`
(lines 786-794) and `get_wow_pdu_len` (lines 678-687): -1 unless the
command/direction pair embeds a length field.  `WOW_SERVER_TO_CLIENT` is
`srcport == WOW_PORT`, `WOW_CLIENT_TO_SERVER` is `destport == WOW_PORT`. -/
def size_field_offset_calc (srcport destport cmd : Nat) : Int :=
  let s0 : Int := -1
  let s1 := if srcport = WOW_PORT ∧ cmd = CMD_REALM_LIST then 1 else s0
  if destport = WOW_PORT ∧ cmd = CMD_AUTH_LOGON_CHALLENGE then 2 else s1

/-- Embedding of `tvb_get_letohs`: read a 16-bit little-endian value; a
negative offset or a read past the buffer end raises a dissector
exception, modelled as `none`. -/
def tvb_get_letohs (tvb : List Nat) (off : Int) : Option Nat :=
  if off < 0 then none
  else
    match tvb.get? off.toNat, tvb.get? (off.toNat + 1) with
    | some b0, some b1 => some (b0 + 256 * b1)
    | _, _ => none

/-- Embedding of `get_wow_pdu_len` (lines 675-692): recompute the size
field offset from the first byte of the PDU at `offset`, then read the
16-bit length — note the source reads it at `size_field_offset` itself,
and performs the read even when the offset stayed -1.  `none` models the
dissector exception thrown by an out-of-range tvb access. -/
def get_wow_pdu_len (srcport destport : Nat) (tvb : List Nat) (offset : Nat) : Option Nat :=
  match tvb.get? offset with
  | none => none
  | some cmd =>
      let size_field_offset := size_field_offset_calc srcport destport cmd
      match tvb_get_letohs tvb size_field_offset with
      | none => none
      | some pkt_len => some (pkt_len + size_field_offset.toNat + 2)

/-- Return value of `dissect_wow_pdu` (lines 694-780):
`tvb_captured_length(tvb)`, the whole delivered buffer. -/
def dissect_wow_pdu (tvb : List Nat) : Nat :=
  tvb.length

/-- How `dissect_wow` proceeds: either one direct `dissect_wow_pdu` call
on the delivered segment, or `tcp_dissect_pdus` reassembly with the given
fixed header length and `get_wow_pdu_len` as the length extractor. -/
inductive WowDissect
  | singleShot (consumed : Nat)
  | reassemble (fixedLen : Nat)
deriving DecidableEq, Repr

/-- Embedding of `dissect_wow` (lines 783-808): reads the command byte at
offset 0 (`none` models the exception on an empty buffer), computes the
size field offset, and picks reassembly exactly when it is > -1. -/
def dissect_wow (srcport destport : Nat) (tvb : List Nat) : Option WowDissect :=
  match tvb with
  | [] => none
  | cmd :: _ =>
      let size_field_offset := size_field_offset_calc srcport destport cmd
      if size_field_offset > -1 then
        some (.reassemble (size_field_offset + 2).toNat)
      else
        some (.singleShot (dissect_wow_pdu tvb))

/-!
Helper lemmas about the map operations and the branches of
`ros_match_call_response`.
-/

theorem mapLookup_eq_none {eq : RosCallResponse → RosCallResponse → Bool}
    {p : RosCallResponse} {l : List RosCallResponse} :
    mapLookup eq p l = none ↔ ∀ x ∈ l, eq p x = false := by
  induction l with
  | nil => simp [mapLookup]
  | cons x xs ih =>
      by_cases h : eq p x = true
      · simp [mapLookup, h]
      · simp only [Bool.not_eq_true] at h
        simp [mapLookup, h, ih]

theorem mapLookup_eq_some {eq : RosCallResponse → RosCallResponse → Bool}
    {p r : RosCallResponse} {l : List RosCallResponse}
    (h : mapLookup eq p l = some r) : eq p r = true ∧ r ∈ l := by
  induction l with
  | nil => simp [mapLookup] at h
  | cons x xs ih =>
      by_cases hx : eq p x = true
      · simp [mapLookup, hx] at h
        subst h
        exact ⟨hx, List.mem_cons_self x xs⟩
      · simp only [Bool.not_eq_true] at hx
        simp [mapLookup, hx] at h
        rcases ih h with ⟨h1, h2⟩
        exact ⟨h1, List.mem_cons_of_mem x h2⟩

theorem mapInsert_of_all_false {eq : RosCallResponse → RosCallResponse → Bool}
    {k : RosCallResponse} {l : List RosCallResponse}
    (h : ∀ x ∈ l, eq k x = false) : mapInsert eq k l = k :: l := by
  unfold mapInsert
  have : l.any (fun x => eq k x) = false := by
    simp only [List.any_eq_false]
    intro x hx
    simp [h x hx]
  simp [this]

theorem mapRemove_sublist (eq : RosCallResponse → RosCallResponse → Bool)
    (k : RosCallResponse) (l : List RosCallResponse) :
    (mapRemove eq k l).Sublist l := by
  induction l with
  | nil => simp [mapRemove]
  | cons x xs ih =>
      by_cases h : eq k x = true
      · rw [mapRemove, if_pos h]
        exact List.Sublist.cons x (List.Sublist.refl xs)
      · rw [mapRemove, if_neg h]
        exact List.Sublist.cons₂ x ih

theorem mapRemove_pairwise {R : RosCallResponse → RosCallResponse → Prop}
    {eq : RosCallResponse → RosCallResponse → Bool} {k : RosCallResponse}
    {l : List RosCallResponse} (h : l.Pairwise R) : (mapRemove eq k l).Pairwise R :=
  h.sublist (mapRemove_sublist eq k l)

theorem mem_of_mem_mapRemove {eq : RosCallResponse → RosCallResponse → Bool}
    {k x : RosCallResponse} {l : List RosCallResponse}
    (h : x ∈ mapRemove eq k l) : x ∈ l :=
  (mapRemove_sublist eq k l).mem h

theorem removed_is_match {eq : RosCallResponse → RosCallResponse → Bool}
    {k r : RosCallResponse} {l : List RosCallResponse}
    (hin : r ∈ l) (hout : r ∉ mapRemove eq k l) : eq k r = true := by
  induction l with
  | nil => simp at hin
  | cons x xs ih =>
      by_cases h : eq k x = true
      · simp only [mapRemove, h, if_pos] at hout
        rcases List.mem_cons.mp hin with h1 | h1
        · subst h1; exact h
        · exact absurd h1 hout
      · simp only [Bool.not_eq_true] at h
        simp only [mapRemove, h] at hout
        simp only [Bool.false_eq_true, if_false] at hout
        rcases List.mem_cons.mp hin with h1 | h1
        · subst h1
          exact absurd (List.mem_cons_self _ _) hout
        · exact ih h1 (fun hc => hout (List.mem_cons_of_mem x hc))

/-- Under the pending-table uniqueness invariant, an id occurs at most once. -/
theorem pairwise_id_unique {l : List RosCallResponse}
    (hpw : l.Pairwise (fun a b => a.invokeId ≠ b.invokeId))
    {a b : RosCallResponse} (ha : a ∈ l) (hb : b ∈ l)
    (hid : a.invokeId = b.invokeId) : a = b := by
  induction l with
  | nil => simp at ha
  | cons x xs ih =>
      rcases List.pairwise_cons.mp hpw with ⟨hx, hxs⟩
      rcases List.mem_cons.mp ha with h1 | h1 <;> rcases List.mem_cons.mp hb with h2 | h2
      · rw [h1, h2]
      · subst h1; exact absurd hid (hx b h2)
      · subst h2; exact absurd hid.symm (hx a h1)
      · exact ih hxs h1 h2

/-- After removing the record found in the pending table, no pending record
with the probed invocation id remains (uniqueness invariant). -/
theorem mapRemove_no_id {pr r : RosCallResponse} {l : List RosCallResponse}
    (hpw : l.Pairwise (fun a b => a.invokeId ≠ b.invokeId))
    (h : mapLookup ros_info_equal_unmatched pr l = some r) :
    ∀ x ∈ mapRemove ros_info_equal_unmatched r l, x.invokeId ≠ pr.invokeId := by
  induction l with
  | nil => simp [mapLookup] at h
  | cons y ys ih =>
      rcases List.pairwise_cons.mp hpw with ⟨hally, hpw2⟩
      by_cases hy : ros_info_equal_unmatched pr y = true
      · rw [mapLookup, if_pos hy] at h
        have hry : r = y := by injection h with h; exact h.symm
        subst hry
        have hrr : ros_info_equal_unmatched r r = true := by
          simp [ros_info_equal_unmatched]
        rw [mapRemove, if_pos hrr]
        intro x hx
        have hpy : pr.invokeId = r.invokeId := by
          simpa [ros_info_equal_unmatched] using hy
        rw [hpy]
        exact fun hc => (hally x hx) hc.symm
      · rw [mapLookup, if_neg hy] at h
        have hpy : pr.invokeId ≠ y.invokeId := by
          simpa [ros_info_equal_unmatched] using hy
        have hpr : pr.invokeId = r.invokeId := by
          simpa [ros_info_equal_unmatched] using (mapLookup_eq_some h).1
        have hry : ros_info_equal_unmatched r y = false := by
          have : r.invokeId ≠ y.invokeId := by rw [← hpr]; exact hpy
          simpa [ros_info_equal_unmatched] using this
        rw [mapRemove, if_neg (by simp [hry])]
        intro x hx
        rcases List.mem_cons.mp hx with h1 | h1
        · subst h1; exact fun hc => hpy hc.symm
        · exact ih hpw2 h x h1

theorem mem_replaceFirst {eq : RosCallResponse → RosCallResponse → Bool}
    {k : RosCallResponse} {l : List RosCallResponse}
    (h : l.any (fun x => eq k x) = true) : k ∈ replaceFirst eq k l := by
  induction l with
  | nil => simp at h
  | cons x xs ih =>
      by_cases hx : eq k x = true
      · rw [replaceFirst, if_pos hx]
        exact List.mem_cons_self k xs
      · rw [replaceFirst, if_neg hx]
        refine List.mem_cons_of_mem x (ih ?_)
        simpa [hx] using h

theorem mem_mapInsert (eq : RosCallResponse → RosCallResponse → Bool)
    (k : RosCallResponse) (l : List RosCallResponse) : k ∈ mapInsert eq k l := by
  unfold mapInsert
  by_cases h : l.any (fun x => eq k x) = true
  · rw [if_pos h]
    exact mem_replaceFirst h
  · rw [if_neg h]
    exact List.mem_cons_self k l

theorem eqm_resultProbe (id n : Nat) (x : RosCallResponse) :
    ros_info_equal_matched (resultProbe id n) x = (id == x.invokeId) := by
  simp [ros_info_equal_matched, resultProbe]

theorem equ_invokeProbe (id n : Nat) (x : RosCallResponse) :
    ros_info_equal_unmatched (invokeProbe id n) x = (id == x.invokeId) := by
  simp [ros_info_equal_unmatched, invokeProbe]

theorem equ_resultProbe (id n : Nat) (x : RosCallResponse) :
    ros_info_equal_unmatched (resultProbe id n) x = (id == x.invokeId) := by
  simp [ros_info_equal_unmatched, resultProbe]

theorem mapLookup_congr {eq eq2 : RosCallResponse → RosCallResponse → Bool}
    {p q : RosCallResponse} (l : List RosCallResponse)
    (h : ∀ x, eq p x = eq2 q x) : mapLookup eq p l = mapLookup eq2 q l := by
  induction l with
  | nil => rfl
  | cons x xs ih => rw [mapLookup, mapLookup, h x, ih]

theorem updateFirstMatch_congr {p q : RosCallResponse → Bool}
    {f : RosCallResponse → RosCallResponse} (l : List RosCallResponse)
    (h : ∀ x, p x = q x) : updateFirstMatch p f l = updateFirstMatch q f l := by
  induction l with
  | nil => rfl
  | cons x xs ih => rw [updateFirstMatch, updateFirstMatch, h x, ih]

theorem updateFirstMatch_id {eq : RosCallResponse → RosCallResponse → Bool}
    {p r : RosCallResponse} {f : RosCallResponse → RosCallResponse}
    {l : List RosCallResponse}
    (h : mapLookup eq p l = some r) (hf : f r = r) :
    updateFirstMatch (fun x => eq p x) f l = l := by
  induction l with
  | nil => rfl
  | cons x xs ih =>
      by_cases hx : eq p x = true
      · rw [mapLookup, if_pos hx] at h
        have : r = x := by injection h with h; exact h.symm
        subst this
        rw [updateFirstMatch, if_pos hx, hf]
      · rw [mapLookup, if_neg hx] at h
        rw [updateFirstMatch, if_neg hx, ih h]

theorem mapLookup_updateFirstMatch {eq : RosCallResponse → RosCallResponse → Bool}
    {p r : RosCallResponse} {f : RosCallResponse → RosCallResponse}
    {l : List RosCallResponse}
    (hstable : ∀ x, eq p (f x) = eq p x)
    (h : mapLookup eq p l = some r) :
    mapLookup eq p (updateFirstMatch (fun x => eq p x) f l) = some (f r) := by
  induction l with
  | nil => simp [mapLookup] at h
  | cons x xs ih =>
      by_cases hx : eq p x = true
      · rw [mapLookup, if_pos hx] at h
        have : r = x := by injection h with h; exact h.symm
        subst this
        rw [updateFirstMatch, if_pos hx, mapLookup, if_pos (by rw [hstable]; exact hx)]
      · rw [mapLookup, if_neg hx] at h
        rw [updateFirstMatch, if_neg hx, mapLookup, if_neg hx]
        exact ih h

theorem updateFirstMatch_idem {p : RosCallResponse → Bool}
    {f : RosCallResponse → RosCallResponse} (l : List RosCallResponse)
    (hstable : ∀ x, p (f x) = p x) (hff : ∀ x, f (f x) = f x) :
    updateFirstMatch p f (updateFirstMatch p f l) = updateFirstMatch p f l := by
  induction l with
  | nil => rfl
  | cons x xs ih =>
      by_cases hx : p x = true
      · rw [updateFirstMatch, if_pos hx, updateFirstMatch,
          if_pos (by rw [hstable]; exact hx), hff]
      · rw [updateFirstMatch, if_neg hx, updateFirstMatch, if_neg hx, ih]

theorem updateFirstMatch_forall2 {p : RosCallResponse → Bool}
    {f : RosCallResponse → RosCallResponse} (l : List RosCallResponse) :
    List.Forall₂ (fun old new => new = old ∨ new = f old) l (updateFirstMatch p f l) := by
  induction l with
  | nil => exact List.Forall₂.nil
  | cons x xs ih =>
      by_cases hx : p x = true
      · rw [updateFirstMatch, if_pos hx]
        exact List.Forall₂.cons (Or.inr rfl) (List.forall₂_same.mpr (fun a _ => Or.inl rfl))
      · rw [updateFirstMatch, if_neg hx]
        exact List.Forall₂.cons (Or.inl rfl) ih

/-!
Branch equations of `ros_match_call_response`, one per control path of the
C function.
-/

theorem rmcr_invoke_hit {s : RosConvInfo} {id n : Nat} {t : ℚ} {rcrp : RosCallResponse}
    (hm : mapLookup ros_info_equal_matched (invokeProbe id n) s.matched = some rcrp) :
    ros_match_call_response s id n t true =
      (⟨s.unmatched,
        updateFirstMatch (fun x => ros_info_equal_matched (invokeProbe id n) x)
          (fun x => { x with is_request := true }) s.matched⟩,
       some { rcrp with is_request := true },
       some (ros_annotate { rcrp with is_request := true } t)) := by
  unfold ros_match_call_response
  simp [hm]

theorem rmcr_result_hit {s : RosConvInfo} {id n : Nat} {t : ℚ} {rcrp : RosCallResponse}
    (hm : mapLookup ros_info_equal_matched (resultProbe id n) s.matched = some rcrp) :
    ros_match_call_response s id n t false =
      (⟨s.unmatched,
        updateFirstMatch (fun x => ros_info_equal_matched (resultProbe id n) x)
          (fun x => { x with is_request := false }) s.matched⟩,
       some { rcrp with is_request := false },
       some (ros_annotate { rcrp with is_request := false } t)) := by
  unfold ros_match_call_response
  simp [hm]

theorem rmcr_invoke_miss_none {s : RosConvInfo} {id n : Nat} {t : ℚ}
    (hm : mapLookup ros_info_equal_matched (invokeProbe id n) s.matched = none)
    (hu : mapLookup ros_info_equal_unmatched (invokeProbe id n) s.unmatched = none) :
    ros_match_call_response s id n t true =
      (⟨mapInsert ros_info_equal_unmatched
          { invokeId := id, req_frame := n, req_time := t,
            rep_frame := 0, is_request := true } s.unmatched,
        s.matched⟩,
       none, none) := by
  unfold ros_match_call_response
  simp [hm, hu]

theorem rmcr_invoke_miss_evict {s : RosConvInfo} {id n : Nat} {t : ℚ}
    {rcrp : RosCallResponse}
    (hm : mapLookup ros_info_equal_matched (invokeProbe id n) s.matched = none)
    (hu : mapLookup ros_info_equal_unmatched (invokeProbe id n) s.unmatched = some rcrp) :
    ros_match_call_response s id n t true =
      (⟨mapInsert ros_info_equal_unmatched
          { invokeId := id, req_frame := n, req_time := t,
            rep_frame := 0, is_request := true }
          (mapRemove ros_info_equal_unmatched rcrp s.unmatched),
        s.matched⟩,
       none, none) := by
  unfold ros_match_call_response
  simp [hm, hu]

theorem rmcr_result_promote {s : RosConvInfo} {id n : Nat} {t : ℚ}
    {rcrp : RosCallResponse}
    (hm : mapLookup ros_info_equal_matched (resultProbe id n) s.matched = none)
    (hu : mapLookup ros_info_equal_unmatched (resultProbe id n) s.unmatched = some rcrp)
    (hrep : rcrp.rep_frame = 0) :
    ros_match_call_response s id n t false =
      (⟨mapRemove ros_info_equal_unmatched rcrp s.unmatched,
        mapInsert ros_info_equal_matched
          { rcrp with rep_frame := n, is_request := false } s.matched⟩,
       some { rcrp with rep_frame := n, is_request := false },
       some (ros_annotate { rcrp with rep_frame := n, is_request := false } t)) := by
  unfold ros_match_call_response
  simp [hm, hu, hrep]

theorem rmcr_result_stale_pending {s : RosConvInfo} {id n : Nat} {t : ℚ}
    {rcrp : RosCallResponse}
    (hm : mapLookup ros_info_equal_matched (resultProbe id n) s.matched = none)
    (hu : mapLookup ros_info_equal_unmatched (resultProbe id n) s.unmatched = some rcrp)
    (hrep : rcrp.rep_frame ≠ 0) :
    ros_match_call_response s id n t false = (s, some rcrp, some (ros_annotate rcrp t)) := by
  unfold ros_match_call_response
  simp [hm, hu, hrep]

theorem rmcr_result_miss {s : RosConvInfo} {id n : Nat} {t : ℚ}
    (hm : mapLookup ros_info_equal_matched (resultProbe id n) s.matched = none)
    (hu : mapLookup ros_info_equal_unmatched (resultProbe id n) s.unmatched = none) :
    ros_match_call_response s id n t false = (s, none, none) := by
  unfold ros_match_call_response
  simp [hm, hu]

example :
    (rosRun [⟨7, 10, 0, true⟩]).unmatched =
      [{ invokeId := 7, req_frame := 10, req_time := 0, rep_frame := 0, is_request := true }] := by
  decide

example :
    (rosRun [⟨7, 10, 0, true⟩, ⟨7, 12, 1/2, false⟩]).matched =
      [{ invokeId := 7, req_frame := 10, req_time := 0, rep_frame := 12, is_request := false }] := by
  decide

example : dissect_wow 3724 49000 [0x10, 0x05, 0x00] = some (.reassemble 3) := by decide

example : dissect_wow 49000 3724 [0x01, 0xaa] = some (.singleShot 2) := by decide

example : get_wow_pdu_len 3724 49000 [0x10, 0x05, 0x00, 1, 2, 3, 4, 5] 0 = some 8 := by decide

example : get_wow_pdu_len 3724 49000 [0x10, 0x05, 0x00, 1, 2, 3, 4, 0x01] 7 = none := by decide

/-!
Claim theorems.
-/

/-- Lookup in the operation table as the spec words it: the decoder of the
first entry whose code equals the requested opcode among the entries
before the first sentinel entry; no decoder when the table is absent or
nothing matches before the sentinel. -/
def spec_lookup_opr (opcode : Int) (operations : Option (List RosOpr))
    (argument : Bool) : DissPtr :=
  match operations with
  | none => .null
  | some ops =>
      match (ops.takeWhile (fun e => !(e.arg_pdu == DissPtr.sentinel))).find?
          (fun e => e.opcode == opcode) with
      | some e => if argument then e.arg_pdu else e.res_pdu
      | none => .null

/-- Lookup in the error table as the spec words it. -/
def spec_lookup_err (errcode : Int) (errors : Option (List RosErr)) : DissPtr :=
  match errors with
  | none => .null
  | some errs =>
      match (errs.takeWhile (fun e => !(e.err_pdu == DissPtr.sentinel))).find?
          (fun e => e.errcode == errcode) with
      | some e => e.err_pdu
      | none => .null

theorem ros_lookup_opr_loop_spec (opcode : Int) (argument : Bool) (l : List RosOpr) :
    ros_lookup_opr_loop opcode argument l =
      match (l.takeWhile (fun e => !(e.arg_pdu == DissPtr.sentinel))).find?
          (fun e => e.opcode == opcode) with
      | some e => if argument then e.arg_pdu else e.res_pdu
      | none => .null := by
  induction l with
  | nil => rfl
  | cons e rest ih =>
      by_cases hs : e.arg_pdu = DissPtr.sentinel
      · rw [ros_lookup_opr_loop, if_pos hs]
        simp [List.takeWhile_cons, hs]
      · by_cases ho : e.opcode = opcode
        · rw [ros_lookup_opr_loop, if_neg hs, if_pos ho]
          simp [List.takeWhile_cons, List.find?_cons, hs, ho]
        · rw [ros_lookup_opr_loop, if_neg hs, if_neg ho, ih]
          simp [List.takeWhile_cons, List.find?_cons, hs, ho]

theorem ros_lookup_err_loop_spec (errcode : Int) (l : List RosErr) :
    ros_lookup_err_loop errcode l =
      match (l.takeWhile (fun e => !(e.err_pdu == DissPtr.sentinel))).find?
          (fun e => e.errcode == errcode) with
      | some e => e.err_pdu
      | none => .null := by
  induction l with
  | nil => rfl
  | cons e rest ih =>
      by_cases hs : e.err_pdu = DissPtr.sentinel
      · rw [ros_lookup_err_loop, if_pos hs]
        simp [List.takeWhile_cons, hs]
      · by_cases ho : e.errcode = errcode
        · rw [ros_lookup_err_loop, if_neg hs, if_pos ho]
          simp [List.takeWhile_cons, List.find?_cons, hs, ho]
        · rw [ros_lookup_err_loop, if_neg hs, if_neg ho, ih]
          simp [List.takeWhile_cons, List.find?_cons, hs, ho]

/-- C8: opcode resolution scans the ordered operation table (or error
table) from the front and returns the decoder of the first entry whose
code equals the requested opcode, stopping at the sentinel entry; with no
match before the sentinel, or an absent table, it returns no decoder, so
the first match wins on duplicates. -/
theorem ros_lookup_first_match_wins (opcode errcode : Int) (argument : Bool)
    (operations : Option (List RosOpr)) (errors : Option (List RosErr)) :
    ros_lookup_opr_dissector opcode operations argument =
      spec_lookup_opr opcode operations argument ∧
    ros_lookup_err_dissector errcode errors = spec_lookup_err errcode errors := by
  constructor
  · cases operations with
    | none => rfl
    | some ops =>
        rw [ros_lookup_opr_dissector, spec_lookup_opr]
        exact ros_lookup_opr_loop_spec opcode argument ops
  · cases errors with
    | none => rfl
    | some errs =>
        rw [ros_lookup_err_dissector, spec_lookup_err]
        exact ros_lookup_err_loop_spec errcode errs

/-- C5: for invoke(id=7, frame=10, t=0) followed by result(id=7, frame=12,
t=1/2) in one session, the result-side call annotates requestFrame=10 with
elapsed time 1/2, and the invoke side (re-examining the invoke once the
matched record exists, `is_request` true) annotates responseFrame=12. -/
theorem ros_concrete_exchange_annotations :
    (ros_match_call_response (rosRun [⟨7, 10, 0, true⟩]) 7 12 (1/2) false).2.2 =
      some (.responseTo 10 (1/2)) ∧
    (ros_match_call_response (rosRun [⟨7, 10, 0, true⟩, ⟨7, 12, 1/2, false⟩]) 7 10 0 true).2.2 =
      some (.responseIn 12) := by
  have h1 : rosRun [⟨7, 10, 0, true⟩] = ⟨[⟨true, 10, 0, 0, 7⟩], []⟩ := by decide
  have h2 : rosRun [⟨7, 10, 0, true⟩, ⟨7, 12, 1/2, false⟩] =
      ⟨[], [⟨false, 10, 0, 12, 7⟩]⟩ := by decide
  constructor
  · rw [h1, @rmcr_result_promote ⟨[⟨true, 10, 0, 0, 7⟩], []⟩ 7 12 (1/2) ⟨true, 10, 0, 0, 7⟩
      (by decide) (by decide) (by decide)]
    simp [ros_annotate]
  · rw [h2, @rmcr_invoke_hit ⟨[], [⟨false, 10, 0, 12, 7⟩]⟩ 7 10 0 ⟨false, 10, 0, 12, 7⟩
      (by decide)]
    simp [ros_annotate]

/-- C7: a result whose invocation id matches nothing in the matched table
and nothing in the unmatched table returns no record, adds no annotation,
and leaves both tables unchanged. -/
theorem ros_result_without_invoke_is_silent (s : RosConvInfo) (id n : Nat) (t : ℚ)
    (hm : ∀ r ∈ s.matched, r.invokeId ≠ id)
    (hu : ∀ r ∈ s.unmatched, r.invokeId ≠ id) :
    ros_match_call_response s id n t false = (s, none, none) := by
  apply rmcr_result_miss
  · rw [mapLookup_eq_none]
    intro x hx
    rw [eqm_resultProbe]
    exact beq_eq_false_iff_ne.mpr (fun h => hm x hx h.symm)
  · rw [mapLookup_eq_none]
    intro x hx
    rw [equ_resultProbe]
    exact beq_eq_false_iff_ne.mpr (fun h => hu x hx h.symm)

theorem ros_result_without_invoke_is_silent_witness :
    ros_match_call_response ⟨[⟨true, 4, 0, 0, 9⟩], [⟨false, 1, 0, 2, 5⟩]⟩ 7 3 0 false =
      (⟨[⟨true, 4, 0, 0, 9⟩], [⟨false, 1, 0, 2, 5⟩]⟩, none, none) :=
  ros_result_without_invoke_is_silent ⟨[⟨true, 4, 0, 0, 9⟩], [⟨false, 1, 0, 2, 5⟩]⟩ 7 3 0
    (by decide) (by decide)

/-- C9: a segment whose command byte and direction select no embedded
length field is dissected single-shot over exactly the delivered bytes,
and reassembly is chosen only when a size-field offset was determined. -/
theorem wow_no_length_field_single_shot (srcport destport cmd : Nat) (rest : List Nat) :
    (¬(srcport = WOW_PORT ∧ cmd = CMD_REALM_LIST) →
     ¬(destport = WOW_PORT ∧ cmd = CMD_AUTH_LOGON_CHALLENGE) →
     dissect_wow srcport destport (cmd :: rest) =
       some (.singleShot (cmd :: rest).length)) ∧
    (∀ n, dissect_wow srcport destport (cmd :: rest) = some (.reassemble n) →
     (srcport = WOW_PORT ∧ cmd = CMD_REALM_LIST) ∨
       (destport = WOW_PORT ∧ cmd = CMD_AUTH_LOGON_CHALLENGE)) := by
  constructor
  · intro h1 h2
    rw [dissect_wow]
    rw [size_field_offset_calc]
    simp only [if_neg h2, if_neg h1]
    norm_num [dissect_wow_pdu]
  · intro n h
    by_cases h1 : srcport = WOW_PORT ∧ cmd = CMD_REALM_LIST
    · exact Or.inl h1
    · by_cases h2 : destport = WOW_PORT ∧ cmd = CMD_AUTH_LOGON_CHALLENGE
      · exact Or.inr h2
      · exfalso
        rw [dissect_wow, size_field_offset_calc] at h
        simp only [if_neg h2, if_neg h1] at h
        norm_num at h
        exact WowDissect.noConfusion h

theorem wow_no_length_field_single_shot_witness :
    dissect_wow 49000 49001 [3, 7] = some (.singleShot 2) ∧
    ((3724 = WOW_PORT ∧ 16 = CMD_REALM_LIST) ∨
      (49001 = WOW_PORT ∧ 16 = CMD_AUTH_LOGON_CHALLENGE)) :=
  ⟨(wow_no_length_field_single_shot 49000 49001 3 [7]).1 (by decide) (by decide),
   (wow_no_length_field_single_shot 3724 49001 16 []).2 3 (by decide)⟩

/-- A server-to-client auth stream: a complete CMD_REALM_LIST PDU (10
bytes: command, 16-bit length 7, 7 body bytes) followed by a PDU whose
command byte is CMD_AUTH_LOGON_PROOF (0x01). -/
def wowStream : List Nat := [0x10, 7, 0, 1, 2, 3, 4, 5, 6, 7, 0x01, 9, 9]

/-- C10: `get_wow_pdu_len` recomputes the size-field offset from each
PDU's own first byte; in a reassembled server-to-client stream that
entered reassembly through CMD_REALM_LIST, a later PDU with a different
command byte recomputes the -1 sentinel and the 16-bit read
`tvb_get_letohs(tvb, -1)` is performed at a negative offset (a dissector
exception, modelled as `none`) — refuting the claim that the offset is
never -1 at the point of the read. -/
theorem wow_pdu_len_reads_at_negative_offset :
    dissect_wow 3724 49000 wowStream = some (.reassemble 3) ∧
    get_wow_pdu_len 3724 49000 wowStream 0 = some 10 ∧
    wowStream.get? 10 = some 0x01 ∧
    size_field_offset_calc 3724 49000 0x01 = -1 ∧
    tvb_get_letohs wowStream (-1) = none ∧
    get_wow_pdu_len 3724 49000 wowStream 10 = none := by
  decide

/-- C1 counterexample: after a completed invoke/result exchange for id 7
(frames 10/12) and a new invoke reusing id 7 at frame 20, the next result
for id 7 (frame 22) returns the stale completed record (requestFrame 10),
not the new pending invoke's record, which stays in the pending table —
the result probe carries requestFrame 0, so the completed-table equality
degenerates to invocation-id equality. -/
theorem ros_reused_id_result_returns_stale :
    (ros_match_call_response
        (rosRun [⟨7, 10, 0, true⟩, ⟨7, 12, 1, false⟩, ⟨7, 20, 2, true⟩]) 7 22 3 false).2.1 =
      some ⟨false, 10, 0, 12, 7⟩ ∧
    (⟨true, 20, 2, 0, 7⟩ : RosCallResponse) ∈
      (ros_match_call_response
        (rosRun [⟨7, 10, 0, true⟩, ⟨7, 12, 1, false⟩, ⟨7, 20, 2, true⟩]) 7 22 3 false).1.unmatched := by
  have h3 : rosRun [⟨7, 10, 0, true⟩, ⟨7, 12, 1, false⟩, ⟨7, 20, 2, true⟩] =
      ⟨[⟨true, 20, 2, 0, 7⟩], [⟨false, 10, 0, 12, 7⟩]⟩ := by decide
  rw [h3, @rmcr_result_hit ⟨[⟨true, 20, 2, 0, 7⟩], [⟨false, 10, 0, 12, 7⟩]⟩ 7 22 3
    ⟨false, 10, 0, 12, 7⟩ (by decide)]
  constructor
  · rfl
  · decide

/-- C4 counterexample: with the completed table holding the record of the
finished exchange invoke(7,10)/result(7,12) — `is_request` false — a
re-examined invoke presenting the same (id 7, requestFrame 10) pair
returns the record but sets its `is_request` field to true, so the record
is not returned with every field unmodified as claimed. -/
theorem ros_rexamined_invoke_modifies_is_request :
    (rosRun [⟨7, 10, 0, true⟩, ⟨7, 12, 1, false⟩]).matched =
      [⟨false, 10, 0, 12, 7⟩] ∧
    (rosStep (rosRun [⟨7, 10, 0, true⟩, ⟨7, 12, 1, false⟩]) ⟨7, 10, 0, true⟩).matched =
      [⟨true, 10, 0, 12, 7⟩] := by
  decide

/-- Equality callbacks of the matched table never hold across distinct
invocation ids. -/
theorem eqm_false_of_id_ne {a b : RosCallResponse} (h : a.invokeId ≠ b.invokeId) :
    ros_info_equal_matched a b = false := by
  unfold ros_info_equal_matched
  split
  · rfl
  · exact beq_eq_false_iff_ne.mpr h

/-- The matched-table equality reads only `req_frame` and `invokeId`, so
overwriting `is_request` does not change it. -/
theorem eqm_set_flag (p x : RosCallResponse) (b : Bool) :
    ros_info_equal_matched p { x with is_request := b } = ros_info_equal_matched p x := by
  simp [ros_info_equal_matched]

/-- The invoke probe misses every completed record that carries a nonzero
requestFrame different from the new invoke's frame. -/
theorem eqm_invokeProbe_false (id n : Nat) (x : RosCallResponse) (hn : n ≠ 0)
    (hx : x.invokeId = id → x.req_frame ≠ 0 ∧ x.req_frame ≠ n) :
    ros_info_equal_matched (invokeProbe id n) x = false := by
  simp only [ros_info_equal_matched, invokeProbe]
  split
  · rfl
  · rename_i hcond
    by_cases hid : x.invokeId = id
    · exact absurd ⟨hn, (hx hid).1, fun hc => (hx hid).2 hc.symm⟩ hcond
    · exact beq_eq_false_iff_ne.mpr (fun hc => hid hc.symm)

/-- One correlator call preserves uniqueness of invocation ids in the
pending (unmatched) table. -/
theorem pendingUnique_step (s : RosConvInfo) (op : RosOp)
    (h : s.unmatched.Pairwise (fun a b => a.invokeId ≠ b.invokeId)) :
    (rosStep s op).unmatched.Pairwise (fun a b => a.invokeId ≠ b.invokeId) := by
  obtain ⟨id, n, t, inv⟩ := op
  show ((ros_match_call_response s id n t inv).1.unmatched).Pairwise _
  cases inv with
  | false =>
      cases hm : mapLookup ros_info_equal_matched (resultProbe id n) s.matched with
      | some rcrp => rw [rmcr_result_hit hm]; exact h
      | none =>
          cases hu : mapLookup ros_info_equal_unmatched (resultProbe id n) s.unmatched with
          | none => rw [rmcr_result_miss hm hu]; exact h
          | some rcrp =>
              by_cases hrep : rcrp.rep_frame = 0
              · rw [rmcr_result_promote hm hu hrep]
                exact mapRemove_pairwise h
              · rw [rmcr_result_stale_pending hm hu hrep]; exact h
  | true =>
      cases hm : mapLookup ros_info_equal_matched (invokeProbe id n) s.matched with
      | some rcrp => rw [rmcr_invoke_hit hm]; exact h
      | none =>
          cases hu : mapLookup ros_info_equal_unmatched (invokeProbe id n) s.unmatched with
          | none =>
              rw [rmcr_invoke_miss_none hm hu]
              have hall : ∀ x ∈ s.unmatched,
                  ros_info_equal_unmatched
                    ({ invokeId := id, req_frame := n, req_time := t,
                       rep_frame := 0, is_request := true } : RosCallResponse) x = false := by
                intro x hx
                have hfx := mapLookup_eq_none.mp hu x hx
                rw [equ_invokeProbe] at hfx
                simpa [ros_info_equal_unmatched] using hfx
              rw [show (mapInsert ros_info_equal_unmatched
                  { invokeId := id, req_frame := n, req_time := t,
                    rep_frame := 0, is_request := true } s.unmatched) = _ from
                mapInsert_of_all_false hall]
              refine List.pairwise_cons.mpr ⟨?_, h⟩
              intro x hx
              have := hall x hx
              simpa [ros_info_equal_unmatched] using this
          | some rcrp =>
              rw [rmcr_invoke_miss_evict hm hu]
              have hrm := mapRemove_no_id h hu
              have hall : ∀ x ∈ mapRemove ros_info_equal_unmatched rcrp s.unmatched,
                  ros_info_equal_unmatched
                    ({ invokeId := id, req_frame := n, req_time := t,
                       rep_frame := 0, is_request := true } : RosCallResponse) x = false := by
                intro x hx
                have hne : x.invokeId ≠ id := hrm x hx
                simpa [ros_info_equal_unmatched] using (fun hc => hne hc.symm)
              rw [show (mapInsert ros_info_equal_unmatched
                  { invokeId := id, req_frame := n, req_time := t,
                    rep_frame := 0, is_request := true }
                  (mapRemove ros_info_equal_unmatched rcrp s.unmatched)) = _ from
                mapInsert_of_all_false hall]
              refine List.pairwise_cons.mpr ⟨?_, mapRemove_pairwise h⟩
              intro x hx
              have := hall x hx
              simpa [ros_info_equal_unmatched] using this

theorem pendingUnique_fold (ops : List RosOp) :
    ∀ s : RosConvInfo, s.unmatched.Pairwise (fun a b => a.invokeId ≠ b.invokeId) →
      ((ops.foldl rosStep s).unmatched).Pairwise (fun a b => a.invokeId ≠ b.invokeId) := by
  induction ops with
  | nil => intro s h; exact h
  | cons op rest ih =>
      intro s h
      exact ih (rosStep s op) (pendingUnique_step s op h)

/-- C2: after every sequence of correlator calls the pending table holds
at most one record per invocation id; and in any single call from a state
satisfying that invariant, a record that leaves the pending table does so
for the call's own invocation id and by exactly one mechanism — an invoke
evicts it leaving the matched table untouched, or a result promotes it
(with responseFrame set) into the matched table. -/
theorem ros_pending_removed_exactly_once :
    (∀ ops : List RosOp,
      ((rosRun ops).unmatched).Pairwise (fun a b => a.invokeId ≠ b.invokeId)) ∧
    (∀ (s : RosConvInfo) (op : RosOp),
      s.unmatched.Pairwise (fun a b => a.invokeId ≠ b.invokeId) →
      ∀ r ∈ s.unmatched, r ∉ (rosStep s op).unmatched →
        op.invokeId = r.invokeId ∧
        ((op.isInvoke = true ∧ (rosStep s op).matched = s.matched) ∨
         (op.isInvoke = false ∧
           { r with rep_frame := op.num, is_request := false } ∈ (rosStep s op).matched))) := by
  constructor
  · intro ops
    exact pendingUnique_fold ops ⟨[], []⟩ (List.Pairwise.nil)
  · intro s op hpw r hr hout
    obtain ⟨id, n, t, inv⟩ := op
    rw [show rosStep s ⟨id, n, t, inv⟩ = (ros_match_call_response s id n t inv).1 from rfl] at hout ⊢
    cases inv with
    | false =>
        cases hm : mapLookup ros_info_equal_matched (resultProbe id n) s.matched with
        | some rcrp => rw [rmcr_result_hit hm] at hout; exact absurd hr hout
        | none =>
            cases hu : mapLookup ros_info_equal_unmatched (resultProbe id n) s.unmatched with
            | none => rw [rmcr_result_miss hm hu] at hout; exact absurd hr hout
            | some rcrp =>
                by_cases hrep : rcrp.rep_frame = 0
                · rw [rmcr_result_promote hm hu hrep] at hout ⊢
                  obtain ⟨heq, hmemr⟩ := mapLookup_eq_some hu
                  have hidr : id = rcrp.invokeId := by
                    rw [equ_resultProbe] at heq
                    exact beq_iff_eq.mp heq
                  have hmr : ros_info_equal_unmatched rcrp r = true :=
                    removed_is_match hr hout
                  have hrid : rcrp.invokeId = r.invokeId := by
                    simpa [ros_info_equal_unmatched] using hmr
                  have hrc : r = rcrp := pairwise_id_unique hpw hr hmemr hrid.symm
                  subst hrc
                  refine ⟨by rw [hidr], Or.inr ⟨rfl, ?_⟩⟩
                  exact mem_mapInsert _ _ _
                · rw [rmcr_result_stale_pending hm hu hrep] at hout
                  exact absurd hr hout
    | true =>
        cases hm : mapLookup ros_info_equal_matched (invokeProbe id n) s.matched with
        | some rcrp => rw [rmcr_invoke_hit hm] at hout; exact absurd hr hout
        | none =>
            cases hu : mapLookup ros_info_equal_unmatched (invokeProbe id n) s.unmatched with
            | none =>
                rw [rmcr_invoke_miss_none hm hu] at hout
                have hall : ∀ x ∈ s.unmatched,
                    ros_info_equal_unmatched
                      ({ invokeId := id, req_frame := n, req_time := t,
                         rep_frame := 0, is_request := true } : RosCallResponse) x = false := by
                  intro x hx
                  have hfx := mapLookup_eq_none.mp hu x hx
                  rw [equ_invokeProbe] at hfx
                  simpa [ros_info_equal_unmatched] using hfx
                rw [mapInsert_of_all_false hall] at hout
                exact absurd (List.mem_cons_of_mem _ hr) hout
            | some rcrp =>
                rw [rmcr_invoke_miss_evict hm hu] at hout ⊢
                have hrm := mapRemove_no_id hpw hu
                have hall : ∀ x ∈ mapRemove ros_info_equal_unmatched rcrp s.unmatched,
                    ros_info_equal_unmatched
                      ({ invokeId := id, req_frame := n, req_time := t,
                         rep_frame := 0, is_request := true } : RosCallResponse) x = false := by
                  intro x hx
                  have hne : x.invokeId ≠ id := hrm x hx
                  simpa [ros_info_equal_unmatched] using (fun hc => hne hc.symm)
                rw [mapInsert_of_all_false hall] at hout
                have hout2 : r ∉ mapRemove ros_info_equal_unmatched rcrp s.unmatched :=
                  fun hc => hout (List.mem_cons_of_mem _ hc)
                have hmr : ros_info_equal_unmatched rcrp r = true :=
                  removed_is_match hr hout2
                obtain ⟨heq, _⟩ := mapLookup_eq_some hu
                have hidr : id = rcrp.invokeId := by
                  rw [equ_invokeProbe] at heq
                  exact beq_iff_eq.mp heq
                have hrid : rcrp.invokeId = r.invokeId := by
                  simpa [ros_info_equal_unmatched] using hmr
                exact ⟨by rw [hidr, hrid], Or.inl ⟨rfl, rfl⟩⟩

theorem ros_pending_removed_exactly_once_witness :
    ((rosRun [⟨3, 1, 0, true⟩]).unmatched).Pairwise (fun a b => a.invokeId ≠ b.invokeId) ∧
    ((⟨3, 5, 0, true⟩ : RosOp).invokeId = (⟨true, 1, 0, 0, 3⟩ : RosCallResponse).invokeId ∧
      (((⟨3, 5, 0, true⟩ : RosOp).isInvoke = true ∧
        (rosStep ⟨[⟨true, 1, 0, 0, 3⟩], []⟩ ⟨3, 5, 0, true⟩).matched =
          (⟨[⟨true, 1, 0, 0, 3⟩], []⟩ : RosConvInfo).matched) ∨
       ((⟨3, 5, 0, true⟩ : RosOp).isInvoke = false ∧
        { (⟨true, 1, 0, 0, 3⟩ : RosCallResponse) with
            rep_frame := (⟨3, 5, 0, true⟩ : RosOp).num, is_request := false } ∈
          (rosStep ⟨[⟨true, 1, 0, 0, 3⟩], []⟩ ⟨3, 5, 0, true⟩).matched))) :=
  ⟨ros_pending_removed_exactly_once.1 [⟨3, 1, 0, true⟩],
   ros_pending_removed_exactly_once.2 ⟨[⟨true, 1, 0, 0, 3⟩], []⟩ ⟨3, 5, 0, true⟩
     (by decide) ⟨true, 1, 0, 0, 3⟩ (by decide) (by decide)⟩

/-- C4 (amended): when the completed table already holds a record for the
presented (id, requestFrame) pair, `recordInvoke` returns that record with
its requestFrame, requestTimestamp and responseFrame untouched and creates
no duplicate (the matched table is the old one updated record-for-record),
but it does set the record's `is_request` flag to true. -/
theorem ros_recordInvoke_completed_hit (s : RosConvInfo) (id n : Nat) (t : ℚ)
    (r : RosCallResponse)
    (hm : mapLookup ros_info_equal_matched (invokeProbe id n) s.matched = some r) :
    (ros_match_call_response s id n t true).2.1 = some { r with is_request := true } ∧
    (ros_match_call_response s id n t true).1.unmatched = s.unmatched ∧
    List.Forall₂ (fun old new => new = old ∨ new = { old with is_request := true })
      s.matched (ros_match_call_response s id n t true).1.matched := by
  rw [rmcr_invoke_hit hm]
  exact ⟨rfl, rfl, updateFirstMatch_forall2 s.matched⟩

theorem ros_recordInvoke_completed_hit_witness :
    (ros_match_call_response ⟨[], [⟨false, 10, 0, 12, 7⟩]⟩ 7 10 0 true).2.1 =
      some ⟨true, 10, 0, 12, 7⟩ ∧
    (ros_match_call_response ⟨[], [⟨false, 10, 0, 12, 7⟩]⟩ 7 10 0 true).1.unmatched = [] ∧
    List.Forall₂ (fun old new => new = old ∨ new = { old with is_request := true })
      [⟨false, 10, 0, 12, 7⟩]
      (ros_match_call_response ⟨[], [⟨false, 10, 0, 12, 7⟩]⟩ 7 10 0 true).1.matched :=
  ros_recordInvoke_completed_hit ⟨[], [⟨false, 10, 0, 12, 7⟩]⟩ 7 10 0
    ⟨false, 10, 0, 12, 7⟩ (by decide)

/-- C1 (amended): the completed table's requestFrame comparison protects
only invoke-side lookups — a new invoke reusing an id with a fresh nonzero
frame misses every stale completed record and is recorded as pending; a
result probe carries requestFrame 0, so a later result for the reused id
matches the stale completed record and returns it, leaving the pending
table (with the new invoke's record) unchanged. -/
theorem ros_completed_equality_guards_invoke_side :
    (∀ (s : RosConvInfo) (id n : Nat) (t : ℚ),
      n ≠ 0 →
      (∀ x ∈ s.matched, x.invokeId = id → x.req_frame ≠ 0 ∧ x.req_frame ≠ n) →
      (ros_match_call_response s id n t true).2.1 = none ∧
      (⟨true, n, t, 0, id⟩ : RosCallResponse) ∈
        (ros_match_call_response s id n t true).1.unmatched) ∧
    (∀ (s : RosConvInfo) (id n : Nat) (t : ℚ) (r : RosCallResponse),
      mapLookup ros_info_equal_matched (resultProbe id n) s.matched = some r →
      (ros_match_call_response s id n t false).2.1 = some { r with is_request := false } ∧
      (ros_match_call_response s id n t false).1.unmatched = s.unmatched) := by
  constructor
  · intro s id n t hn hx
    have hm : mapLookup ros_info_equal_matched (invokeProbe id n) s.matched = none :=
      mapLookup_eq_none.mpr (fun x hmem => eqm_invokeProbe_false id n x hn (hx x hmem))
    cases hu : mapLookup ros_info_equal_unmatched (invokeProbe id n) s.unmatched with
    | none =>
        rw [rmcr_invoke_miss_none hm hu]
        exact ⟨rfl, mem_mapInsert _ _ _⟩
    | some rcrp =>
        rw [rmcr_invoke_miss_evict hm hu]
        exact ⟨rfl, mem_mapInsert _ _ _⟩
  · intro s id n t r hm
    rw [rmcr_result_hit hm]
    exact ⟨rfl, rfl⟩

theorem ros_completed_equality_guards_invoke_side_witness :
    ((ros_match_call_response ⟨[], [⟨false, 10, 0, 12, 7⟩]⟩ 7 20 2 true).2.1 = none ∧
      (⟨true, 20, 2, 0, 7⟩ : RosCallResponse) ∈
        (ros_match_call_response ⟨[], [⟨false, 10, 0, 12, 7⟩]⟩ 7 20 2 true).1.unmatched) ∧
    ((ros_match_call_response ⟨[], [⟨false, 10, 0, 12, 7⟩]⟩ 7 22 3 false).2.1 =
        some ⟨false, 10, 0, 12, 7⟩ ∧
      (ros_match_call_response ⟨[], [⟨false, 10, 0, 12, 7⟩]⟩ 7 22 3 false).1.unmatched = []) :=
  ⟨ros_completed_equality_guards_invoke_side.1 ⟨[], [⟨false, 10, 0, 12, 7⟩]⟩ 7 20 2
     (by decide) (by decide),
   ros_completed_equality_guards_invoke_side.2 ⟨[], [⟨false, 10, 0, 12, 7⟩]⟩ 7 22 3
     ⟨false, 10, 0, 12, 7⟩ (by decide)⟩

/-- A result call that finds a completed record whose `is_request` flag is
already false returns it and leaves the state fixed: re-setting the flag
to false and updating the table in place are both identities. -/
theorem rmcr_result_rehit (s1 : RosConvInfo) (id n2 : Nat) (t2 : ℚ) (r : RosCallResponse)
    (hl : mapLookup ros_info_equal_matched (resultProbe id n2) s1.matched = some r)
    (hflag : r.is_request = false) :
    ros_match_call_response s1 id n2 t2 false = (s1, some r, some (ros_annotate r t2)) := by
  have hf : ({ r with is_request := false } : RosCallResponse) = r := by
    obtain ⟨a, b, c, d, e⟩ := r
    have : a = false := hflag
    subst this
    rfl
  rw [rmcr_result_hit hl, updateFirstMatch_id hl hf, hf]

/-- C3: if a result call for an invocation id returned a record (the
completed record of the exchange, found or freshly promoted), a second
result call for the same id returns the very same record — found in the
completed table — and leaves the entire state, the pending table included,
unchanged. -/
theorem ros_recordResult_idempotent (s : RosConvInfo) (id n1 n2 : Nat) (t1 t2 : ℚ)
    (s1 : RosConvInfo) (r : RosCallResponse) (a1 : Option RosAnnot)
    (h : ros_match_call_response s id n1 t1 false = (s1, some r, a1)) :
    ros_match_call_response s1 id n2 t2 false = (s1, some r, some (ros_annotate r t2)) := by
  have hcong : ∀ x, ros_info_equal_matched (resultProbe id n2) x =
      ros_info_equal_matched (resultProbe id n1) x := by
    intro x; rw [eqm_resultProbe, eqm_resultProbe]
  have hcongu : ∀ x, ros_info_equal_unmatched (resultProbe id n2) x =
      ros_info_equal_unmatched (resultProbe id n1) x := by
    intro x; rw [equ_resultProbe, equ_resultProbe]
  cases hm : mapLookup ros_info_equal_matched (resultProbe id n1) s.matched with
  | some rcrp =>
      rw [rmcr_result_hit hm] at h
      injection h with hA h23
      injection h23 with hB hC
      have hr := Option.some.inj hB
      have hAm : s1.matched = updateFirstMatch
          (fun x => ros_info_equal_matched (resultProbe id n1) x)
          (fun x => { x with is_request := false }) s.matched := by rw [← hA]
      have hstable : ∀ x, ros_info_equal_matched (resultProbe id n1)
          ({ x with is_request := false }) =
          ros_info_equal_matched (resultProbe id n1) x :=
        fun x => eqm_set_flag _ x false
      have hl : mapLookup ros_info_equal_matched (resultProbe id n2) s1.matched = some r := by
        rw [hAm, mapLookup_congr _ hcong, ← hr]
        exact mapLookup_updateFirstMatch hstable hm
      have hflag : r.is_request = false := by rw [← hr]
      exact rmcr_result_rehit s1 id n2 t2 r hl hflag
  | none =>
      cases hu : mapLookup ros_info_equal_unmatched (resultProbe id n1) s.unmatched with
      | none =>
          rw [rmcr_result_miss hm hu] at h
          injection h with hA h23
          injection h23 with hB hC
          exact Option.noConfusion hB
      | some rcrp =>
          by_cases hrep : rcrp.rep_frame = 0
          · rw [rmcr_result_promote hm hu hrep] at h
            injection h with hA h23
            injection h23 with hB hC
            have hr := Option.some.inj hB
            have hid : id = rcrp.invokeId := by
              have heq := (mapLookup_eq_some hu).1
              rw [equ_resultProbe] at heq
              exact beq_iff_eq.mp heq
            have hmf : ∀ x ∈ s.matched,
                ros_info_equal_matched
                  ({ rcrp with rep_frame := n1, is_request := false }) x = false := by
              intro x hx
              have hfx := mapLookup_eq_none.mp hm x hx
              rw [eqm_resultProbe] at hfx
              apply eqm_false_of_id_ne
              intro hc
              exact (beq_eq_false_iff_ne.mp hfx) (hid.trans hc)
            have hins : mapInsert ros_info_equal_matched
                { rcrp with rep_frame := n1, is_request := false } s.matched =
                { rcrp with rep_frame := n1, is_request := false } :: s.matched :=
              mapInsert_of_all_false hmf
            have hAm : s1.matched = mapInsert ros_info_equal_matched
                { rcrp with rep_frame := n1, is_request := false } s.matched := by
              rw [← hA]
            have hl : mapLookup ros_info_equal_matched (resultProbe id n2) s1.matched =
                some r := by
              rw [hAm, hins, mapLookup,
                if_pos (by rw [eqm_resultProbe]; exact beq_iff_eq.mpr hid), hr]
            have hflag : r.is_request = false := by rw [← hr]
            exact rmcr_result_rehit s1 id n2 t2 r hl hflag
          · rw [rmcr_result_stale_pending hm hu hrep] at h
            injection h with hA h23
            injection h23 with hB hC
            subst hA
            have hr := Option.some.inj hB
            subst hr
            have hm2 : mapLookup ros_info_equal_matched (resultProbe id n2) s.matched =
                none := by
              rw [mapLookup_congr _ hcong]; exact hm
            have hu2 : mapLookup ros_info_equal_unmatched (resultProbe id n2) s.unmatched =
                some rcrp := by
              rw [mapLookup_congr _ hcongu]; exact hu
            exact rmcr_result_stale_pending hm2 hu2 hrep

theorem ros_recordResult_idempotent_witness :
    ros_match_call_response ⟨[], [⟨false, 10, 0, 12, 7⟩]⟩ 7 13 2 false =
      (⟨[], [⟨false, 10, 0, 12, 7⟩]⟩, some ⟨false, 10, 0, 12, 7⟩,
        some (ros_annotate ⟨false, 10, 0, 12, 7⟩ 2)) :=
  ros_recordResult_idempotent ⟨[⟨true, 10, 0, 0, 7⟩], []⟩ 7 12 13 1 2
    ⟨[], [⟨false, 10, 0, 12, 7⟩]⟩ ⟨false, 10, 0, 12, 7⟩
    (some (ros_annotate ⟨false, 10, 0, 12, 7⟩ 1))
    (by rw [@rmcr_result_promote ⟨[⟨true, 10, 0, 0, 7⟩], []⟩ 7 12 1 ⟨true, 10, 0, 0, 7⟩
      (by decide) (by decide) (by decide)]; rfl)

/-- A one-protocol registry: OID "2.6.1.4.5" with one registered operation
(opcode 5, argument decoder 0, result decoder 1) before the sentinel
entry. -/
def pt0 : List (String × RosInfoT) :=
  [("2.6.1.4.5", ⟨some [⟨5, .fn 0, .fn 1⟩, ⟨0, .sentinel, .null⟩], some []⟩)]

/-- A decoder environment in which every decoder consumes nothing. -/
def env0 : Nat → List Nat → Int := fun _ _ => 0

/-- A decoder environment in which every decoder consumes two bytes. -/
def env2 : Nat → List Nat → Int := fun _ _ => 2

/-- The session presenting an invoke argument for opcode 5. -/
def sess0 : RosSession := ⟨false, .argument, 5⟩

/-- C6 counterexample: a decoder is registered for (OID, opcode, kind) —
resolution yields it — yet when that decoder consumes zero bytes the
dispatch falls through past the generic string table all the way to the
structural fallback, emitting the one not-implemented diagnostic; this
refutes the claim that a dispatch with a registered decoder never reaches
the fallback. -/
theorem ros_registered_decoder_zero_consumed_falls_back :
    ros_resolve pt0 (some "2.6.1.4.5") (some sess0) = .fn 0 ∧
    call_ros_oid_callback env0 pt0 [] (some "2.6.1.4.5") [1, 2, 3] 0 (some sess0) =
      (3, [some "2.6.1.4.5"]) := by
  constructor
  · rfl
  · rfl

/-- C6 (amended): when resolution yields no decoder for the OID and
opcode (the OID unregistered or the opcode unmatched) and the generic
string-keyed table has no entry either, dispatch reaches the structural
fallback, which emits exactly one not-implemented diagnostic tagged with
the OID and consumes the full remaining PDU body; when a decoder is
registered and it consumes a nonzero number of bytes, the fallback is
never reached and no diagnostic is emitted. -/
theorem ros_dispatch_fallback (env : Nat → List Nat → Int)
    (pt : List (String × RosInfoT)) (ot : List (String × Nat)) (oid : String)
    (tvb : List Nat) (offset : Nat) (sess : Option RosSession) :
    (ros_resolve pt (some oid) sess = .null →
     strLookup oid ot = none →
     call_ros_oid_callback env pt ot (some oid) tvb offset sess =
       (offset + ((tvb.drop offset).length : Int), [some oid])) ∧
    (∀ d, ros_resolve pt (some oid) sess = .fn d →
     env d (tvb.drop offset) ≠ 0 →
     call_ros_oid_callback env pt ot (some oid) tvb offset sess =
       (offset + env d (tvb.drop offset), [])) := by
  constructor
  · intro hres hot
    rw [call_ros_oid_callback]
    rw [show ros_try_string env pt (some oid) (tvb.drop offset) sess = 0 from by
      rw [ros_try_string, hres]]
    rw [show dissector_try_string env ot (some oid) (tvb.drop offset) = 0 from by
      rw [dissector_try_string, hot]]
    simp [dissect_unknown_ber]
  · intro d hres henv
    rw [call_ros_oid_callback]
    rw [show ros_try_string env pt (some oid) (tvb.drop offset) sess =
        env d (tvb.drop offset) from by rw [ros_try_string, hres]]
    rw [if_pos henv]

theorem ros_dispatch_fallback_witness :
    call_ros_oid_callback env0 pt0 [] (some "2.6.1.4.5") [1, 2, 3] 0
        (some ⟨false, .argument, 9⟩) = (3, [some "2.6.1.4.5"]) ∧
    call_ros_oid_callback env2 pt0 [] (some "2.6.1.4.5") [1, 2, 3] 0 (some sess0) =
      (2, []) :=
  ⟨(ros_dispatch_fallback env0 pt0 [] "2.6.1.4.5" [1, 2, 3] 0
      (some ⟨false, .argument, 9⟩)).1 rfl rfl,
   (ros_dispatch_fallback env2 pt0 [] "2.6.1.4.5" [1, 2, 3] 0 (some sess0)).2 0 rfl
     (by decide)⟩
